import Mathlib

/-!
# bot2020_node: twist to motor command conversion

A shallow embedding of `src/bot2020_node.cpp`.

Modelling conventions.

* `float` and `double` values are exact rationals (`ℚ`): rounding error and
  the non-finite values are outside the model.  A division whose divisor is
  zero has no finite result and is `none`.
* `int` is the 32-bit signed machine integer.  The conversion `int(x)` of a
  floating value truncates toward zero; C++ leaves it undefined when the
  truncated value is not representable in `int`, and the embedding returns
  `none` there.
* `std_msgs::Int16::data` is a 16-bit signed integer; storing an `int` into it
  keeps the value modulo `2 ^ 16`.
* A publisher is the list of the messages published on it so far, oldest first.
-/

namespace Bot2020Node

/-- The class constant `PI = 3.1415927`. -/
def PI : ℚ := 31415927 / 10000000

/-- Smallest value of a 32-bit `int`. -/
def INT_MIN : ℤ := -2147483648

/-- Largest value of a 32-bit `int`. -/
def INT_MAX : ℤ := 2147483647

/-- The fields `linear.x` and `angular.z` of a `geometry_msgs::Twist`; the
other four fields are not read by the node. -/
structure Twist where
  linear_x : ℚ
  angular_z : ℚ
  deriving DecidableEq

/-- Member state of the class `Bot2020`.  `leftMotor_` and `rightMotor_` hold
the `data` fields of the messages published so far. -/
structure Bot2020 where
  twistTopic_ : String
  leftMotorTopic_ : String
  rightMotorTopic_ : String
  leftRpmMax_ : ℚ
  rightRpmMax_ : ℚ
  leftWheelDiameterMm_ : ℚ
  rightWheelDiameterMm_ : ℚ
  wheelSpacingMm_ : ℚ
  pwmLimit_ : ℤ
  leftMotor_ : List ℤ
  rightMotor_ : List ℤ
  deriving DecidableEq

/-- The C library function `round`: nearest integer, halfway cases away from
zero.  The result is still a floating value. -/
def round (x : ℚ) : ℚ :=
  if 0 ≤ x then ((⌊x + 1 / 2⌋ : ℤ) : ℚ) else ((⌈x - 1 / 2⌉ : ℤ) : ℚ)

/-- The conversion `int(x)` of a floating value: truncation toward zero,
undefined when the result does not fit a 32-bit `int`. -/
def toInt (x : ℚ) : Option ℤ :=
  let t : ℤ := if 0 ≤ x then ⌊x⌋ else ⌈x⌉
  if INT_MIN ≤ t ∧ t ≤ INT_MAX then some t else none

/-- Floating division restricted to finite results. -/
def fdiv (a b : ℚ) : Option ℚ :=
  if b = 0 then none else some (a / b)

/-- The assignment of an `int` to the `int16_t` field `data`. -/
def toInt16 (z : ℤ) : ℤ :=
  (z + 32768) % 65536 - 32768

/-- Right wheel speed, line 109. -/
def velocityRight (wheelSpacingMm : ℚ) (twist : Twist) : ℚ :=
  ((2 * twist.linear_x) + (twist.angular_z * wheelSpacingMm) / 1000) / 2

/-- Left wheel speed, line 110. -/
def velocityLeft (wheelSpacingMm : ℚ) (twist : Twist) : ℚ :=
  ((2 * twist.linear_x) - (twist.angular_z * wheelSpacingMm) / 1000) / 2

/-- The expression of lines 117 and 118 for one wheel: the rounded PWM value
before the clamp. -/
def pwm (v : ℚ) (pwmLimit : ℤ) (rpmMax wheelDiameterMm : ℚ) : Option ℚ :=
  (fdiv (v * (pwmLimit : ℚ) * 1000 * 60) (rpmMax * wheelDiameterMm * PI)).map round

/-- The clamp of lines 127 to 140 for one wheel: `int(p)` bounded by the
limit on the side of its sign. -/
def clampToLimit (p : ℚ) (pwmLimit : ℤ) : Option ℤ :=
  if p ≥ 0 then (toInt p).map (fun i => min i pwmLimit)
  else (toInt p).map (fun i => max i (-pwmLimit))

/-- The local `pwmLeft` of line 117. -/
def pwmLeft (s : Bot2020) (twist : Twist) : Option ℚ :=
  pwm (velocityLeft s.wheelSpacingMm_ twist) s.pwmLimit_ s.leftRpmMax_ s.leftWheelDiameterMm_

/-- The local `pwmRight` of line 118. -/
def pwmRight (s : Bot2020) (twist : Twist) : Option ℚ :=
  pwm (velocityRight s.wheelSpacingMm_ twist) s.pwmLimit_ s.rightRpmMax_ s.rightWheelDiameterMm_

/-- Lines 103 to 140 of `twistCallback`: the pair `(cmdLeft, cmdRight)`. -/
def convert (s : Bot2020) (twist : Twist) : Option (ℤ × ℤ) :=
  match pwmLeft s twist, pwmRight s twist with
  | some pl, some pr =>
    match clampToLimit pl s.pwmLimit_, clampToLimit pr s.pwmLimit_ with
    | some cmdLeft, some cmdRight => some (cmdLeft, cmdRight)
    | _, _ => none
  | _, _ => none

/-- The method `twistCallback`: convert, then publish one message on each
motor topic. -/
def twistCallback (s : Bot2020) (twist : Twist) : Option Bot2020 :=
  match convert s twist with
  | some (cmdLeft, cmdRight) =>
    some { s with leftMotor_ := s.leftMotor_ ++ [toInt16 cmdLeft],
                  rightMotor_ := s.rightMotor_ ++ [toInt16 cmdRight] }
  | none => none

/-- The method `stopMotors`. -/
def stopMotors (s : Bot2020) : Bot2020 :=
  { s with leftMotor_ := s.leftMotor_ ++ [0],
           rightMotor_ := s.rightMotor_ ++ [0] }

/-- The member values set by the constructor before any parameter is read,
with nothing published yet. -/
def defaults : Bot2020 where
  twistTopic_ := "/bot2020/cmd_vel"
  leftMotorTopic_ := "/bot2020/left_motor"
  rightMotorTopic_ := "/bot2020/right_motor"
  leftRpmMax_ := 90
  rightRpmMax_ := 90
  leftWheelDiameterMm_ := 65
  rightWheelDiameterMm_ := 65
  wheelSpacingMm_ := 105
  pwmLimit_ := 255
  leftMotor_ := []
  rightMotor_ := []

/-- The invariant of a robot configuration: every physical parameter is
strictly positive and the PWM limit is a positive integer. -/
def Valid (s : Bot2020) : Prop :=
  0 < s.leftRpmMax_ ∧ 0 < s.rightRpmMax_ ∧ 0 < s.leftWheelDiameterMm_ ∧
    0 < s.rightWheelDiameterMm_ ∧ 0 < s.wheelSpacingMm_ ∧ 0 < s.pwmLimit_

instance (s : Bot2020) : Decidable (Valid s) := by
  unfold Valid; infer_instance

/-- A floating value whose conversion to `int` is defined. -/
def InIntRange (o : Option ℚ) : Prop :=
  match o with
  | some p => (INT_MIN : ℚ) ≤ p ∧ p ≤ (INT_MAX : ℚ)
  | none => False

/-- Both rounded PWM values of a command are finite and fit a 32-bit `int`. -/
def Representable (s : Bot2020) (twist : Twist) : Prop :=
  InIntRange (pwmLeft s twist) ∧ InIntRange (pwmRight s twist)

/-! ### The conversion as the specification words it -/

/-- Right wheel speed of the specification,
`vr = vc + (wc * wheel_spacing_mm / 1000) / 2`. -/
def specVr (wheelSpacingMm vc wc : ℚ) : ℚ :=
  vc + (wc * wheelSpacingMm / 1000) / 2

/-- Left wheel speed of the specification,
`vl = vc - (wc * wheel_spacing_mm / 1000) / 2`. -/
def specVl (wheelSpacingMm vc wc : ℚ) : ℚ :=
  vc - (wc * wheelSpacingMm / 1000) / 2

/-- Rounding to the nearest integer, halves away from zero. -/
def specRound (x : ℚ) : ℤ :=
  if 0 ≤ x then ⌊x + 1 / 2⌋ else -⌊-x + 1 / 2⌋

/-- Actuation value of the specification,
`round(v * actuation_limit * 1000 * 60 / (rpm_max * wheel_diameter_mm * π))`. -/
def specPwm (v : ℚ) (limit : ℤ) (rpmMax wheelDiameterMm : ℚ) : ℤ :=
  specRound (v * (limit : ℚ) * 1000 * 60 / (rpmMax * wheelDiameterMm * PI))

/-- Clamp of the specification: `min(x, limit)` for `x >= 0` and
`max(x, -limit)` for `x < 0`. -/
def specClamp (x limit : ℤ) : ℤ :=
  if 0 ≤ x then min x limit else max x (-limit)

/-- The reference algorithm of the specification, as the pair `(left, right)`. -/
def specConvert (s : Bot2020) (twist : Twist) : ℤ × ℤ :=
  (specClamp (specPwm (specVl s.wheelSpacingMm_ twist.linear_x twist.angular_z)
      s.pwmLimit_ s.leftRpmMax_ s.leftWheelDiameterMm_) s.pwmLimit_,
   specClamp (specPwm (specVr s.wheelSpacingMm_ twist.linear_x twist.angular_z)
      s.pwmLimit_ s.rightRpmMax_ s.rightWheelDiameterMm_) s.pwmLimit_)

/-- The pair most recently published on the left and right motor topics. -/
def lastPair (s : Bot2020) : Option (ℤ × ℤ) :=
  match s.leftMotor_.getLast?, s.rightMotor_.getLast? with
  | some l, some r => some (l, r)
  | _, _ => none

/-- The default configuration with the parameter `pwm_limit` set to 40000. -/
def wideLimit : Bot2020 :=
  { defaults with pwmLimit_ := 40000 }

/-! ### Construction and process lifetime -/

/-- The private parameters of the node on the parameter server, each with the
type of the member it is read into; `none` is a key that is not set. -/
structure Params where
  twist_topic : Option String
  left_motor_topic : Option String
  right_motor_topic : Option String
  left_rpm_max : Option ℚ
  right_rpm_max : Option ℚ
  left_wheel_diameter_mm : Option ℚ
  right_wheel_diameter_mm : Option ℚ
  wheel_spacing_mm : Option ℚ
  pwm_limit : Option ℤ

/-- The call `nh.getParam(key, var)`: the variable receives the value of the
key when the key is set and keeps its value otherwise. -/
def getParam {α : Type} (value : Option α) (var : α) : α :=
  match value with
  | some v => v
  | none => var

/-- The constructor `Bot2020(nh)`: the members are set to their defaults
(lines 31 to 39), then each parameter is read over its member (lines 45 to
53); subscribing and advertising publish nothing. -/
def construct (nh : Params) : Bot2020 :=
  let s := defaults
  let s := { s with twistTopic_ := getParam nh.twist_topic s.twistTopic_ }
  let s := { s with leftMotorTopic_ := getParam nh.left_motor_topic s.leftMotorTopic_ }
  let s := { s with rightMotorTopic_ := getParam nh.right_motor_topic s.rightMotorTopic_ }
  let s := { s with leftRpmMax_ := getParam nh.left_rpm_max s.leftRpmMax_ }
  let s := { s with rightRpmMax_ := getParam nh.right_rpm_max s.rightRpmMax_ }
  let dl := getParam nh.left_wheel_diameter_mm s.leftWheelDiameterMm_
  let s := { s with leftWheelDiameterMm_ := dl }
  let dr := getParam nh.right_wheel_diameter_mm s.rightWheelDiameterMm_
  let s := { s with rightWheelDiameterMm_ := dr }
  let s := { s with wheelSpacingMm_ := getParam nh.wheel_spacing_mm s.wheelSpacingMm_ }
  { s with pwmLimit_ := getParam nh.pwm_limit s.pwmLimit_ }

/-- The destructor `~Bot2020`. -/
def destructor (s : Bot2020) : Bot2020 :=
  stopMotors s

/-- One delivery of a `Twist` by the dispatch loop.  The process is taken to
keep running when the conversion of `twistCallback` is undefined; the two
messages then carry the values `junk` that the platform happened to produce. -/
def deliver (s : Bot2020) (event : Twist × ℤ × ℤ) : Bot2020 :=
  match twistCallback s event.1 with
  | some s' => s'
  | none => { s with leftMotor_ := s.leftMotor_ ++ [event.2.1],
                     rightMotor_ := s.rightMotor_ ++ [event.2.2] }

/-- The dispatch loop `ros::spin()` over the deliveries of one process
lifetime, in order. -/
def spin (s : Bot2020) (events : List (Twist × ℤ × ℤ)) : Bot2020 :=
  events.foldl deliver s

/-- The function `main`: construct the node, call `stopMotors`, run the
dispatch loop, and destroy the node on return. -/
def main (nh : Params) (events : List (Twist × ℤ × ℤ)) : Bot2020 :=
  destructor (spin (stopMotors (construct nh)) events)

/-- A parameter server on which no key of the node is set. -/
def noParams : Params :=
  ⟨none, none, none, none, none, none, none, none, none⟩

/-! ### Rounding, truncation and clamp -/

theorem PI_pos : 0 < PI := by norm_num [PI]

theorem round_eq_specRound (x : ℚ) : round x = (specRound x : ℚ) := by
  unfold round specRound
  split_ifs with h
  · rfl
  · have : -x + 1 / 2 = -(x - 1 / 2) := by ring
    rw [this, Int.floor_neg, neg_neg]

theorem specRound_neg (x : ℚ) : specRound (-x) = -specRound x := by
  unfold specRound
  rcases lt_trichotomy x 0 with h | h | h
  · have h1 : (0 : ℚ) ≤ -x := by linarith
    have h2 : ¬ (0 : ℚ) ≤ x := by linarith
    simp [h1, h2]
  · subst h; norm_num
  · have h1 : ¬ (0 : ℚ) ≤ -x := by linarith
    have h2 : (0 : ℚ) ≤ x := by linarith
    simp [h1, h2]

theorem specRound_nonneg {x : ℚ} (h : 0 ≤ x) : 0 ≤ specRound x := by
  unfold specRound
  rw [if_pos h]
  exact Int.floor_nonneg.2 (by linarith)

theorem specRound_nonpos {x : ℚ} (h : x ≤ 0) : specRound x ≤ 0 := by
  have := specRound_nonneg (show (0 : ℚ) ≤ -x by linarith)
  rw [specRound_neg] at this
  linarith

theorem specRound_mono {x y : ℚ} (h : x ≤ y) : specRound x ≤ specRound y := by
  by_cases hx : 0 ≤ x
  · have hy : 0 ≤ y := le_trans hx h
    unfold specRound
    rw [if_pos hx, if_pos hy]
    exact Int.floor_mono (by linarith)
  · by_cases hy : 0 ≤ y
    · exact le_trans (specRound_nonpos (by linarith)) (specRound_nonneg hy)
    · unfold specRound
      rw [if_neg hx, if_neg hy]
      have : ⌊-y + 1 / 2⌋ ≤ ⌊-x + 1 / 2⌋ := Int.floor_mono (by linarith)
      linarith

theorem toInt_intCast (k : ℤ) :
    toInt (k : ℚ) = if INT_MIN ≤ k ∧ k ≤ INT_MAX then some k else none := by
  simp [toInt]

theorem clampToLimit_intCast (k limit : ℤ) :
    clampToLimit (k : ℚ) limit =
      if INT_MIN ≤ k ∧ k ≤ INT_MAX then some (specClamp k limit) else none := by
  unfold clampToLimit specClamp
  rw [toInt_intCast]
  by_cases hk : 0 ≤ k
  · have : (k : ℚ) ≥ 0 := by exact_mod_cast hk
    rw [if_pos this, if_pos hk]
    split_ifs <;> rfl
  · have : ¬ (k : ℚ) ≥ 0 := by
      intro h; exact hk (by exact_mod_cast h)
    rw [if_neg this, if_neg hk]
    split_ifs <;> rfl

theorem specClamp_bounds (k limit : ℤ) (h : 0 ≤ limit) :
    -limit ≤ specClamp k limit ∧ specClamp k limit ≤ limit := by
  unfold specClamp
  split_ifs with hk
  · exact ⟨by have := le_min hk h; linarith, min_le_right _ _⟩
  · exact ⟨le_max_right _ _, max_le (by linarith) (by linarith)⟩

theorem specClamp_neg (k limit : ℤ) (h : 0 ≤ limit) :
    specClamp (-k) limit = -specClamp k limit := by
  unfold specClamp
  simp only [min_def, max_def]
  split_ifs <;> omega

theorem specClamp_mono {j k : ℤ} (limit : ℤ) (h : 0 ≤ limit) (hjk : j ≤ k) :
    specClamp j limit ≤ specClamp k limit := by
  unfold specClamp
  by_cases hj : 0 ≤ j
  · rw [if_pos hj, if_pos (le_trans hj hjk)]
    exact min_le_min_right _ hjk
  · by_cases hk : 0 ≤ k
    · rw [if_neg hj, if_pos hk]
      exact le_trans (max_le (by linarith) (by linarith)) (le_min hk h)
    · rw [if_neg hj, if_neg hk]
      exact max_le_max_right _ hjk

/-! ### The conversion in closed form -/

theorem velocityLeft_eq (w : ℚ) (twist : Twist) :
    velocityLeft w twist = specVl w twist.linear_x twist.angular_z := by
  unfold velocityLeft specVl; ring

theorem velocityRight_eq (w : ℚ) (twist : Twist) :
    velocityRight w twist = specVr w twist.linear_x twist.angular_z := by
  unfold velocityRight specVr; ring

theorem pwm_eq (v : ℚ) (limit : ℤ) {rpmMax dia : ℚ} (hr : 0 < rpmMax) (hd : 0 < dia) :
    pwm v limit rpmMax dia = some ((specPwm v limit rpmMax dia : ℤ) : ℚ) := by
  have hne : rpmMax * dia * PI ≠ 0 := ne_of_gt (mul_pos (mul_pos hr hd) PI_pos)
  simp [pwm, fdiv, hne, specPwm, round_eq_specRound]

theorem pwmLeft_eq {s : Bot2020} (hs : Valid s) (twist : Twist) :
    pwmLeft s twist = some (((specPwm (specVl s.wheelSpacingMm_ twist.linear_x twist.angular_z)
      s.pwmLimit_ s.leftRpmMax_ s.leftWheelDiameterMm_ : ℤ)) : ℚ) := by
  obtain ⟨h1, _, h3, _, _, _⟩ := hs
  rw [pwmLeft, pwm_eq _ _ h1 h3, velocityLeft_eq]

theorem pwmRight_eq {s : Bot2020} (hs : Valid s) (twist : Twist) :
    pwmRight s twist = some (((specPwm (specVr s.wheelSpacingMm_ twist.linear_x twist.angular_z)
      s.pwmLimit_ s.rightRpmMax_ s.rightWheelDiameterMm_ : ℤ)) : ℚ) := by
  obtain ⟨_, h2, _, h4, _, _⟩ := hs
  rw [pwmRight, pwm_eq _ _ h2 h4, velocityRight_eq]

theorem inIntRange_intCast (k : ℤ) :
    InIntRange (some (k : ℚ)) ↔ INT_MIN ≤ k ∧ k ≤ INT_MAX := by
  simp only [InIntRange]
  constructor
  · rintro ⟨h1, h2⟩
    exact ⟨by exact_mod_cast h1, by exact_mod_cast h2⟩
  · rintro ⟨h1, h2⟩
    exact ⟨by exact_mod_cast h1, by exact_mod_cast h2⟩

/-- On a valid configuration whose rounded PWM values both fit a 32-bit `int`
the conversion is defined and is the reference algorithm. -/
theorem convert_of_representable {s : Bot2020} (hs : Valid s) {twist : Twist}
    (h : Representable s twist) : convert s twist = some (specConvert s twist) := by
  have hl := pwmLeft_eq hs twist
  have hr := pwmRight_eq hs twist
  unfold Representable at h
  rw [hl, hr, inIntRange_intCast, inIntRange_intCast] at h
  simp only [convert, hl, hr, clampToLimit_intCast, specConvert, if_pos h.1, if_pos h.2]

/-- On a valid configuration the conversion is undefined as soon as one rounded
PWM value does not fit a 32-bit `int`. -/
theorem convert_of_not_representable {s : Bot2020} (hs : Valid s) {twist : Twist}
    (h : ¬ Representable s twist) : convert s twist = none := by
  have hl := pwmLeft_eq hs twist
  have hr := pwmRight_eq hs twist
  unfold Representable at h
  rw [hl, hr, inIntRange_intCast, inIntRange_intCast] at h
  simp only [convert, hl, hr, clampToLimit_intCast]
  split_ifs with h1 h2 h2
  · exact absurd ⟨h1, h2⟩ h
  · rfl
  · rfl
  · rfl

/-! ### Properties of the conversion where it is defined -/

/-- Where the conversion is defined both commands lie within the limit. -/
theorem convert_within_limit {s : Bot2020} (hs : Valid s) {twist : Twist}
    (h : Representable s twist) :
    ∃ l r, convert s twist = some (l, r) ∧
      (-s.pwmLimit_ ≤ l ∧ l ≤ s.pwmLimit_) ∧ (-s.pwmLimit_ ≤ r ∧ r ≤ s.pwmLimit_) := by
  have hL : 0 ≤ s.pwmLimit_ := le_of_lt hs.2.2.2.2.2
  exact ⟨_, _, convert_of_representable hs h, specClamp_bounds _ _ hL, specClamp_bounds _ _ hL⟩

theorem specClamp_of_gt {k limit : ℤ} (h : 0 ≤ limit) (hk : limit < k) :
    specClamp k limit = limit := by
  unfold specClamp
  rw [if_pos (by linarith), min_eq_right (le_of_lt hk)]

theorem specClamp_of_lt {k limit : ℤ} (h : 0 ≤ limit) (hk : k < -limit) :
    specClamp k limit = -limit := by
  unfold specClamp
  rw [if_neg (by linarith), max_eq_right (le_of_lt hk)]

theorem specPwm_neg (v : ℚ) (limit : ℤ) (rpmMax dia : ℚ) :
    specPwm (-v) limit rpmMax dia = -specPwm v limit rpmMax dia := by
  unfold specPwm
  rw [← specRound_neg]
  congr 1
  ring

theorem specPwm_mono {u v : ℚ} {limit : ℤ} {rpmMax dia : ℚ} (hl : 0 ≤ limit)
    (hr : 0 < rpmMax) (hd : 0 < dia) (h : u ≤ v) :
    specPwm u limit rpmMax dia ≤ specPwm v limit rpmMax dia := by
  unfold specPwm
  apply specRound_mono
  have hden : 0 < rpmMax * dia * PI := mul_pos (mul_pos hr hd) PI_pos
  have hlq : (0 : ℚ) ≤ (limit : ℚ) := by exact_mod_cast hl
  apply div_le_div_of_nonneg_right _ (le_of_lt hden)
  have : u * (limit : ℚ) ≤ v * (limit : ℚ) := mul_le_mul_of_nonneg_right h hlq
  nlinarith

/-- Straight-line commands on a symmetric configuration give equal wheel
commands, where the conversion is defined. -/
theorem convert_symmetric_linear {s : Bot2020} (hs : Valid s)
    (hrpm : s.leftRpmMax_ = s.rightRpmMax_)
    (hdia : s.leftWheelDiameterMm_ = s.rightWheelDiameterMm_) (vc : ℚ)
    (h : Representable s ⟨vc, 0⟩) :
    ∃ l r, convert s ⟨vc, 0⟩ = some (l, r) ∧ l = r := by
  refine ⟨_, _, convert_of_representable hs h, ?_⟩
  simp [specVl, specVr, hrpm, hdia]

/-- Pure rotations on a symmetric configuration give opposite wheel commands,
where the conversion is defined. -/
theorem convert_symmetric_angular {s : Bot2020} (hs : Valid s)
    (hrpm : s.leftRpmMax_ = s.rightRpmMax_)
    (hdia : s.leftWheelDiameterMm_ = s.rightWheelDiameterMm_) (wc : ℚ)
    (h : Representable s ⟨0, wc⟩) :
    ∃ l r, convert s ⟨0, wc⟩ = some (l, r) ∧ l = -r := by
  refine ⟨_, _, convert_of_representable hs h, ?_⟩
  have hL : 0 ≤ s.pwmLimit_ := le_of_lt hs.2.2.2.2.2
  have hv : specVl s.wheelSpacingMm_ 0 wc = -specVr s.wheelSpacingMm_ 0 wc := by
    unfold specVl specVr; ring
  simp only [hv, specPwm_neg, specClamp_neg _ _ hL, hrpm, hdia]

/-- Both wheel commands are non-decreasing in `linear.x`, where the conversion
is defined. -/
theorem convert_mono {s : Bot2020} (hs : Valid s) (wc : ℚ) {x₁ x₂ : ℚ} (hx : x₁ ≤ x₂)
    (h₁ : Representable s ⟨x₁, wc⟩) (h₂ : Representable s ⟨x₂, wc⟩) :
    ∃ l₁ r₁ l₂ r₂, convert s ⟨x₁, wc⟩ = some (l₁, r₁) ∧ convert s ⟨x₂, wc⟩ = some (l₂, r₂) ∧
      l₁ ≤ l₂ ∧ r₁ ≤ r₂ := by
  obtain ⟨h1, h2, h3, h4, _, h6⟩ := hs
  have hL : 0 ≤ s.pwmLimit_ := le_of_lt h6
  refine ⟨_, _, _, _, convert_of_representable ⟨h1, h2, h3, h4, ‹_›, h6⟩ h₁,
    convert_of_representable ⟨h1, h2, h3, h4, ‹_›, h6⟩ h₂, ?_, ?_⟩
  · apply specClamp_mono _ hL
    apply specPwm_mono hL h1 h3
    unfold specVl
    linarith
  · apply specClamp_mono _ hL
    apply specPwm_mono hL h2 h4
    unfold specVr
    linarith

/-- C1, clamping.  The claim asks that every command on a valid configuration
gives wheel commands within the limit.  On the default configuration the
command `linear.x = 10000000`, `angular.z = 0` has the rounded PWM value
`8325027670`, above the largest `int`; the conversion `int(pwmLeft)` that
precedes the clamp is undefined there and no bounded pair is produced. -/
theorem clamping_undefined_fast_forward :
    Valid defaults ∧ pwmLeft defaults ⟨10000000, 0⟩ = some 8325027670 ∧
      convert defaults ⟨10000000, 0⟩ = none := by
  refine ⟨by decide, ?_, ?_⟩
  · norm_num [pwmLeft, pwm, fdiv, round, velocityLeft, defaults, PI]
  · norm_num [convert, pwmLeft, pwmRight, pwm, fdiv, clampToLimit, toInt, round,
      velocityLeft, velocityRight, defaults, PI, INT_MIN, INT_MAX, Int.ceil_neg]

/-- C2, reference algorithm.  On the default configuration the command
`linear.x = 0`, `angular.z = 1000000000` is mapped by the reference algorithm of
the specification to `(-255, 255)`, while the conversion of the code is
undefined: both rounded PWM values lie outside the range of `int`. -/
theorem reference_differs_fast_spin :
    Valid defaults ∧ specConvert defaults ⟨0, 1000000000⟩ = (-255, 255) ∧
      convert defaults ⟨0, 1000000000⟩ = none := by
  refine ⟨by decide, ?_, ?_⟩
  · norm_num [specConvert, specClamp, specPwm, specRound, specVl, specVr, defaults, PI]
  · norm_num [convert, pwmLeft, pwmRight, pwm, fdiv, clampToLimit, toInt, round,
      velocityLeft, velocityRight, defaults, PI, INT_MIN, INT_MAX, Int.ceil_neg]

/-- C3, exact saturation.  With the limit 255 the rounded values 400 and -400
are clamped to 255 and -255.  On the default configuration the command
`linear.x = 20000000`, `angular.z = 0` has the rounded PWM value `16650055339`,
above 255, and its clamp is undefined instead of 255. -/
theorem saturation_undefined_beyond_int :
    (clampToLimit 400 255 = some 255 ∧ clampToLimit (-400) 255 = some (-255)) ∧
      pwmRight defaults ⟨20000000, 0⟩ = some 16650055339 ∧
      clampToLimit 16650055339 defaults.pwmLimit_ = none ∧
      convert defaults ⟨20000000, 0⟩ = none := by
  refine ⟨⟨?_, ?_⟩, ?_, ?_, ?_⟩
  · norm_num [clampToLimit, toInt, INT_MIN, INT_MAX]
  · norm_num [clampToLimit, toInt, INT_MIN, INT_MAX, Int.ceil_neg]
  · norm_num [pwmRight, pwm, fdiv, round, velocityRight, defaults, PI]
  · norm_num [clampToLimit, toInt, INT_MIN, INT_MAX, defaults]
  · norm_num [convert, pwmLeft, pwmRight, pwm, fdiv, clampToLimit, toInt, round,
      velocityLeft, velocityRight, defaults, PI, INT_MIN, INT_MAX, Int.ceil_neg]

/-- C5, symmetry.  The default configuration is symmetric, yet the straight
command `linear.x = 3000000` and the rotation `angular.z = 2000000000` have no
defined conversion, so neither `left = right` nor `left = -right` is delivered
there. -/
theorem symmetry_undefined_large_commands :
    (defaults.leftRpmMax_ = defaults.rightRpmMax_ ∧
      defaults.leftWheelDiameterMm_ = defaults.rightWheelDiameterMm_) ∧
      convert defaults ⟨3000000, 0⟩ = none ∧ convert defaults ⟨0, 2000000000⟩ = none := by
  refine ⟨⟨by decide, by decide⟩, ?_, ?_⟩
  · norm_num [convert, pwmLeft, pwmRight, pwm, fdiv, clampToLimit, toInt, round,
      velocityLeft, velocityRight, defaults, PI, INT_MIN, INT_MAX, Int.ceil_neg]
  · norm_num [convert, pwmLeft, pwmRight, pwm, fdiv, clampToLimit, toInt, round,
      velocityLeft, velocityRight, defaults, PI, INT_MIN, INT_MAX, Int.ceil_neg]

/-- C6, monotonicity.  On the default configuration with `angular.z = 0` the
command `linear.x = 1` is converted to `(255, 255)`, while the larger command
`linear.x = 100000000` has no defined conversion, so the outputs are not
non-decreasing along `1 ≤ 100000000`. -/
theorem monotonicity_undefined_beyond_saturation :
    convert defaults ⟨1, 0⟩ = some (255, 255) ∧ (1 : ℚ) ≤ 100000000 ∧
      convert defaults ⟨100000000, 0⟩ = none := by
  refine ⟨?_, by norm_num, ?_⟩
  · norm_num [convert, pwmLeft, pwmRight, pwm, fdiv, clampToLimit, toInt, round,
      velocityLeft, velocityRight, defaults, PI, INT_MIN, INT_MAX, Int.ceil_neg]
  · norm_num [convert, pwmLeft, pwmRight, pwm, fdiv, clampToLimit, toInt, round,
      velocityLeft, velocityRight, defaults, PI, INT_MIN, INT_MAX, Int.ceil_neg]

/-- C7 as stated fails: on the default configuration the command
`linear.x = 0.2`, `angular.z = 0` is not converted to `(8, 8)`. -/
theorem straight_line_not_eight : convert defaults ⟨1 / 5, 0⟩ ≠ some (8, 8) := by
  norm_num [convert, pwmLeft, pwmRight, pwm, fdiv, clampToLimit, toInt, round,
    velocityLeft, velocityRight, defaults, PI, INT_MIN, INT_MAX, Int.ceil_neg]

/-- C7, straight-line scenario as amended.  On the default configuration the
command `linear.x = 0.2`, `angular.z = 0` has both wheel speeds equal to 0.2
and is converted to `(167, 167)`. -/
theorem straight_line_scenario :
    velocityLeft defaults.wheelSpacingMm_ ⟨1 / 5, 0⟩ = 1 / 5 ∧
      velocityRight defaults.wheelSpacingMm_ ⟨1 / 5, 0⟩ = 1 / 5 ∧
      convert defaults ⟨1 / 5, 0⟩ = some (167, 167) := by
  refine ⟨?_, ?_, ?_⟩
  · norm_num [velocityLeft, defaults]
  · norm_num [velocityRight, defaults]
  · norm_num [convert, pwmLeft, pwmRight, pwm, fdiv, clampToLimit, toInt, round,
      velocityLeft, velocityRight, defaults, PI, INT_MIN, INT_MAX, Int.ceil_neg]

/-- C8 as stated fails: on the default configuration the command
`linear.x = 0`, `angular.z = 1` is not converted to `(-4, 4)`. -/
theorem pure_rotation_not_four : convert defaults ⟨0, 1⟩ ≠ some (-4, 4) := by
  norm_num [convert, pwmLeft, pwmRight, pwm, fdiv, clampToLimit, toInt, round,
    velocityLeft, velocityRight, defaults, PI, INT_MIN, INT_MAX, Int.ceil_neg]

/-- C8, pure-rotation scenario as amended.  On the default configuration the
command `linear.x = 0`, `angular.z = 1` has the wheel speeds `vr = 0.0525` and
`vl = -0.0525` and is converted to `(-44, 44)`. -/
theorem pure_rotation_scenario :
    velocityRight defaults.wheelSpacingMm_ ⟨0, 1⟩ = 21 / 400 ∧
      velocityLeft defaults.wheelSpacingMm_ ⟨0, 1⟩ = -(21 / 400) ∧
      convert defaults ⟨0, 1⟩ = some (-44, 44) := by
  refine ⟨?_, ?_, ?_⟩
  · norm_num [velocityRight, defaults]
  · norm_num [velocityLeft, defaults]
  · norm_num [convert, pwmLeft, pwmRight, pwm, fdiv, clampToLimit, toInt, round,
      velocityLeft, velocityRight, defaults, PI, INT_MIN, INT_MAX, Int.ceil_neg]

/-- C9, stop.  Whatever the configuration and whatever was published before,
the pair last published after `stopMotors` is `(0, 0)`. -/
theorem stopMotors_lastPair (s : Bot2020) : lastPair (stopMotors s) = some (0, 0) := by
  simp [lastPair, stopMotors]

/-- C10 as stated fails: with `pwm_limit = 40000` the command `linear.x = 100`
is converted to `(40000, 40000)`, and the messages appended by `twistCallback`
do not carry these values. -/
theorem emission_not_computed_value :
    ¬ ∃ l r, convert wideLimit ⟨100, 0⟩ = some (l, r) ∧
      twistCallback wideLimit ⟨100, 0⟩ =
        some { wideLimit with leftMotor_ := wideLimit.leftMotor_ ++ [l],
                              rightMotor_ := wideLimit.rightMotor_ ++ [r] } := by
  have hc : convert wideLimit ⟨100, 0⟩ = some (40000, 40000) := by
    norm_num [convert, pwmLeft, pwmRight, pwm, fdiv, clampToLimit, toInt, round,
      velocityLeft, velocityRight, defaults, wideLimit, PI, INT_MIN, INT_MAX, Int.ceil_neg]
  rintro ⟨l, r, h1, h2⟩
  rw [hc] at h1
  simp only [Option.some.injEq, Prod.mk.injEq] at h1
  obtain ⟨rfl, rfl⟩ := h1
  simp [twistCallback, hc, toInt16] at h2

/-- C10, emission as amended.  On a valid configuration a call of
`twistCallback` whose rounded PWM values fit an `int` appends exactly one
message to each motor topic, the left one carrying the 16-bit value of the
computed left command and the right one that of the right command; a call of
`stopMotors` appends exactly one message carrying 0 to each topic.  Nothing
else of the state changes, and earlier messages are kept. -/
theorem emission_one_message_each (s : Bot2020) (hs : Valid s) (twist : Twist)
    (h : Representable s twist) :
    (∃ l r, convert s twist = some (l, r) ∧
      twistCallback s twist =
        some { s with leftMotor_ := s.leftMotor_ ++ [toInt16 l],
                      rightMotor_ := s.rightMotor_ ++ [toInt16 r] }) ∧
    stopMotors s = { s with leftMotor_ := s.leftMotor_ ++ [0],
                            rightMotor_ := s.rightMotor_ ++ [0] } := by
  refine ⟨⟨(specConvert s twist).1, (specConvert s twist).2,
    convert_of_representable hs h, ?_⟩, rfl⟩
  simp [twistCallback, convert_of_representable hs h]

theorem emission_one_message_each_witness :
    Valid defaults ∧ Representable defaults ⟨1 / 5, 0⟩ ∧
    ((∃ l r, convert defaults ⟨1 / 5, 0⟩ = some (l, r) ∧
      twistCallback defaults ⟨1 / 5, 0⟩ =
        some { defaults with leftMotor_ := defaults.leftMotor_ ++ [toInt16 l],
                             rightMotor_ := defaults.rightMotor_ ++ [toInt16 r] }) ∧
    stopMotors defaults = { defaults with leftMotor_ := defaults.leftMotor_ ++ [0],
                                          rightMotor_ := defaults.rightMotor_ ++ [0] }) :=
  have hr : Representable defaults ⟨1 / 5, 0⟩ := by
    norm_num [Representable, InIntRange, pwmLeft, pwmRight, pwm, fdiv, round, velocityLeft,
      velocityRight, defaults, PI, INT_MIN, INT_MAX]
  ⟨by decide, hr, emission_one_message_each defaults (by decide) ⟨1 / 5, 0⟩ hr⟩

/-! ### Support for the lifetime, narrowing and direction claims -/

theorem deliver_length (s : Bot2020) (event : Twist × ℤ × ℤ) :
    (deliver s event).leftMotor_.length = s.leftMotor_.length + 1 ∧
      (deliver s event).rightMotor_.length = s.rightMotor_.length + 1 := by
  unfold deliver twistCallback
  cases convert s event.1 with
  | none => simp
  | some p => simp

theorem spin_length (events : List (Twist × ℤ × ℤ)) (s : Bot2020) :
    (spin s events).leftMotor_.length = s.leftMotor_.length + events.length ∧
      (spin s events).rightMotor_.length = s.rightMotor_.length + events.length := by
  induction events generalizing s with
  | nil => simp [spin]
  | cons e es ih =>
    have h := ih (deliver s e)
    have hd := deliver_length s e
    simp only [spin, List.foldl_cons, List.length_cons] at h ⊢
    omega

/-- On a valid configuration neither division of lines 117 and 118 has a zero
divisor: both rounded PWM values are defined for every command. -/
theorem division_defined {s : Bot2020} (hs : Valid s) (twist : Twist) :
    (s.leftRpmMax_ * s.leftWheelDiameterMm_ * PI ≠ 0 ∧
      s.rightRpmMax_ * s.rightWheelDiameterMm_ * PI ≠ 0) ∧
      ∃ pl pr : ℤ, pwmLeft s twist = some (pl : ℚ) ∧ pwmRight s twist = some (pr : ℚ) := by
  obtain ⟨h1, h2, h3, h4, h5, h6⟩ := hs
  exact ⟨⟨ne_of_gt (mul_pos (mul_pos h1 h3) PI_pos), ne_of_gt (mul_pos (mul_pos h2 h4) PI_pos)⟩,
    _, _, pwmLeft_eq ⟨h1, h2, h3, h4, h5, h6⟩ twist, pwmRight_eq ⟨h1, h2, h3, h4, h5, h6⟩ twist⟩

/-- On a symmetric configuration the right command is at least the left one
for a counter-clockwise turn and at most the left one for a clockwise turn,
where the conversion is defined. -/
theorem convert_turn_direction {s : Bot2020} (hs : Valid s)
    (hrpm : s.leftRpmMax_ = s.rightRpmMax_)
    (hdia : s.leftWheelDiameterMm_ = s.rightWheelDiameterMm_) (twist : Twist)
    (h : Representable s twist) :
    ∃ l r, convert s twist = some (l, r) ∧
      (0 ≤ twist.angular_z → l ≤ r) ∧ (twist.angular_z ≤ 0 → r ≤ l) := by
  obtain ⟨h1, h2, h3, h4, h5, h6⟩ := hs
  have hL : 0 ≤ s.pwmLimit_ := le_of_lt h6
  refine ⟨_, _, convert_of_representable ⟨h1, h2, h3, h4, h5, h6⟩ h, ?_, ?_⟩
  · intro hw
    rw [hrpm, hdia]
    apply specClamp_mono _ hL
    apply specPwm_mono hL h2 h4
    unfold specVl specVr
    have : 0 ≤ twist.angular_z * s.wheelSpacingMm_ := mul_nonneg hw (le_of_lt h5)
    linarith
  · intro hw
    rw [hrpm, hdia]
    apply specClamp_mono _ hL
    apply specPwm_mono hL h2 h4
    unfold specVl specVr
    have : twist.angular_z * s.wheelSpacingMm_ ≤ 0 :=
      mul_nonpos_of_nonpos_of_nonneg hw (le_of_lt h5)
    linarith

/-- Negating a command negates both wheel commands, where the conversions of
the command and of its negation are defined. -/
theorem convert_neg {s : Bot2020} (hs : Valid s) (vc wc : ℚ)
    (h : Representable s ⟨vc, wc⟩) (hn : Representable s ⟨-vc, -wc⟩) :
    ∃ l r, convert s ⟨vc, wc⟩ = some (l, r) ∧ convert s ⟨-vc, -wc⟩ = some (-l, -r) := by
  have hL : 0 ≤ s.pwmLimit_ := le_of_lt hs.2.2.2.2.2
  refine ⟨_, _, convert_of_representable hs h, ?_⟩
  rw [convert_of_representable hs hn]
  have hl : specVl s.wheelSpacingMm_ (-vc) (-wc) = -specVl s.wheelSpacingMm_ vc wc := by
    unfold specVl; ring
  have hr : specVr s.wheelSpacingMm_ (-vc) (-wc) = -specVr s.wheelSpacingMm_ vc wc := by
    unfold specVr; ring
  simp only [specConvert, hl, hr, specPwm_neg, specClamp_neg _ _ hL]


theorem getParam_eq_getD {α : Type} (value : Option α) (var : α) :
    getParam value var = value.getD var := by
  cases value <;> rfl

/-! ### The claims on lifetime, configuration and numeric behaviour -/

/-- C11, zero on teardown.  For every parameter server and every sequence of
deliveries during the lifetime of the process, each delivery has published one
message per topic and the pair published last, by the destructor, is
`(0, 0)`. -/
theorem main_ends_with_zero (nh : Params) (events : List (Twist × ℤ × ℤ)) :
    lastPair (main nh events) = some (0, 0) ∧
      (main nh events).leftMotor_.length = events.length + 2 ∧
      (main nh events).rightMotor_.length = events.length + 2 := by
  have h := spin_length events (stopMotors (construct nh))
  refine ⟨by simp [main, destructor, lastPair, stopMotors], ?_, ?_⟩
  · have h1 := h.1
    simp [main, destructor, stopMotors, construct, defaults] at h1 ⊢
    omega
  · have h2 := h.2
    simp [main, destructor, stopMotors, construct, defaults] at h2 ⊢
    omega

/-- C12 as stated fails: on the default configuration a command delivered
after a call of `stopMotors` is converted and published as `(167, 167)`. -/
theorem command_after_stop_is_emitted :
    twistCallback (stopMotors defaults) ⟨1 / 5, 0⟩ =
      some { defaults with leftMotor_ := [0, 167], rightMotor_ := [0, 167] } := by
  norm_num [stopMotors, twistCallback, toInt16, convert, pwmLeft, pwmRight, pwm, fdiv,
    clampToLimit, toInt, round, velocityLeft, velocityRight, defaults, PI, INT_MIN, INT_MAX]

/-- C12, stop as amended.  A call of `stopMotors` leaves the controller
running: a command whose conversion is `(l, r)` before the call has the same
conversion after it, and `twistCallback` publishes it after the zero pair. -/
theorem stopMotors_keeps_running (s : Bot2020) (twist : Twist) (l r : ℤ)
    (hc : convert s twist = some (l, r)) :
    convert (stopMotors s) twist = some (l, r) ∧
      twistCallback (stopMotors s) twist =
        some { s with leftMotor_ := s.leftMotor_ ++ [0, toInt16 l],
                      rightMotor_ := s.rightMotor_ ++ [0, toInt16 r] } := by
  have h : convert (stopMotors s) twist = some (l, r) := hc
  refine ⟨h, ?_⟩
  unfold twistCallback
  rw [h]
  simp [stopMotors]

theorem stopMotors_keeps_running_witness :
    convert defaults ⟨1 / 5, 0⟩ = some (167, 167) ∧
      convert (stopMotors defaults) ⟨1 / 5, 0⟩ = some (167, 167) ∧
      twistCallback (stopMotors defaults) ⟨1 / 5, 0⟩ =
        some { defaults with leftMotor_ := defaults.leftMotor_ ++ [0, toInt16 167],
                             rightMotor_ := defaults.rightMotor_ ++ [0, toInt16 167] } :=
  have hc : convert defaults ⟨1 / 5, 0⟩ = some (167, 167) := by
    norm_num [convert, pwmLeft, pwmRight, pwm, fdiv, clampToLimit, toInt, round,
      velocityLeft, velocityRight, defaults, PI, INT_MIN, INT_MAX]
  ⟨hc, stopMotors_keeps_running defaults ⟨1 / 5, 0⟩ 167 167 hc⟩

/-- C13, configuration defaults.  Each member of the constructed node is the
value of its own key when the key is set and the documented default
otherwise, and nothing has been published. -/
theorem construct_per_key (nh : Params) :
    (construct nh).twistTopic_ = nh.twist_topic.getD "/bot2020/cmd_vel" ∧
    (construct nh).leftMotorTopic_ = nh.left_motor_topic.getD "/bot2020/left_motor" ∧
    (construct nh).rightMotorTopic_ = nh.right_motor_topic.getD "/bot2020/right_motor" ∧
    (construct nh).leftRpmMax_ = nh.left_rpm_max.getD 90 ∧
    (construct nh).rightRpmMax_ = nh.right_rpm_max.getD 90 ∧
    (construct nh).leftWheelDiameterMm_ = nh.left_wheel_diameter_mm.getD 65 ∧
    (construct nh).rightWheelDiameterMm_ = nh.right_wheel_diameter_mm.getD 65 ∧
    (construct nh).wheelSpacingMm_ = nh.wheel_spacing_mm.getD 105 ∧
    (construct nh).pwmLimit_ = nh.pwm_limit.getD 255 ∧
    (construct nh).leftMotor_ = [] ∧ (construct nh).rightMotor_ = [] := by
  simp [construct, getParam_eq_getD, defaults]


/-- C14, no error conditions.  On the default configuration the command
`linear.x = 5000000`, `angular.z = 0` passes both divisions, with the rounded
PWM values `4162513835`, yet the conversion returns no integer pair: the
values do not fit an `int`. -/
theorem division_defined_conversion_undefined :
    Valid defaults ∧ pwmLeft defaults ⟨5000000, 0⟩ = some 4162513835 ∧
      pwmRight defaults ⟨5000000, 0⟩ = some 4162513835 ∧
      convert defaults ⟨5000000, 0⟩ = none := by
  refine ⟨by decide, ?_, ?_, ?_⟩
  · norm_num [pwmLeft, pwm, fdiv, round, velocityLeft, defaults, PI]
  · norm_num [pwmRight, pwm, fdiv, round, velocityRight, defaults, PI]
  · norm_num [convert, pwmLeft, pwmRight, pwm, fdiv, clampToLimit, toInt, round,
      velocityLeft, velocityRight, defaults, PI, INT_MIN, INT_MAX, Int.ceil_neg]

/-- C15, turn direction.  The default configuration is symmetric and the
command `linear.x = 0`, `angular.z = 3000000000` turns counter-clockwise, yet
its conversion is undefined, so `right >= left` is not delivered there. -/
theorem turn_direction_undefined_fast_spin :
    (defaults.leftRpmMax_ = defaults.rightRpmMax_ ∧
      defaults.leftWheelDiameterMm_ = defaults.rightWheelDiameterMm_) ∧
      (0 : ℚ) ≤ 3000000000 ∧ convert defaults ⟨0, 3000000000⟩ = none := by
  refine ⟨⟨by decide, by decide⟩, by norm_num, ?_⟩
  norm_num [convert, pwmLeft, pwmRight, pwm, fdiv, clampToLimit, toInt, round,
    velocityLeft, velocityRight, defaults, PI, INT_MIN, INT_MAX, Int.ceil_neg]

/-- C16, negation.  On the default configuration neither the command
`linear.x = 4000000`, `angular.z = 1` nor its negation has a defined
conversion, so the negated command does not yield the negated pair. -/
theorem negation_undefined_large_command :
    convert defaults ⟨4000000, 1⟩ = none ∧ convert defaults ⟨-4000000, -1⟩ = none := by
  refine ⟨?_, ?_⟩
  · norm_num [convert, pwmLeft, pwmRight, pwm, fdiv, clampToLimit, toInt, round,
      velocityLeft, velocityRight, defaults, PI, INT_MIN, INT_MAX, Int.ceil_neg]
  · norm_num [convert, pwmLeft, pwmRight, pwm, fdiv, clampToLimit, toInt, round,
      velocityLeft, velocityRight, defaults, PI, INT_MIN, INT_MAX, Int.ceil_neg]

/-- C18, kinematic round trip.  For a positive wheel spacing the wheel speeds
of lines 109 and 110 give back the command: their mean is `linear.x` and
their difference divided by the spacing in metres is `angular.z`. -/
theorem kinematic_round_trip (wheelSpacingMm vc wc : ℚ) (hw : 0 < wheelSpacingMm) :
    (velocityRight wheelSpacingMm ⟨vc, wc⟩ + velocityLeft wheelSpacingMm ⟨vc, wc⟩) / 2 = vc ∧
      (velocityRight wheelSpacingMm ⟨vc, wc⟩ - velocityLeft wheelSpacingMm ⟨vc, wc⟩) /
        (wheelSpacingMm / 1000) = wc := by
  have hne : wheelSpacingMm ≠ 0 := ne_of_gt hw
  unfold velocityRight velocityLeft
  constructor
  · ring
  · field_simp
    ring

theorem kinematic_round_trip_witness :
    (0 : ℚ) < 105 ∧
      ((velocityRight 105 ⟨1 / 5, 1⟩ + velocityLeft 105 ⟨1 / 5, 1⟩) / 2 = 1 / 5 ∧
        (velocityRight 105 ⟨1 / 5, 1⟩ - velocityLeft 105 ⟨1 / 5, 1⟩) / (105 / 1000) = 1) :=
  ⟨by norm_num, kinematic_round_trip 105 (1 / 5) 1 (by norm_num)⟩

end Bot2020Node
